import Mathlib

/-!
Shallow embedding of the ClickHouse TypeScript client core: the
`ClickHouseClient` facade (query, exec, command, insert, ping), its
query-text rewriting helpers (`formatQuery`, `removeTrailingSemi`),
per-call parameter assembly (`getQueryParams`, settings spread), and
configuration resolution (`getConnectionParams`, `createUrl`,
`validateConnectionParams`).  Effectful pieces (exceptions, the
connection, the values encoder, stream closing) are embedded as
`Except` results, function-valued connection models, and explicit
effect logs.  Machine-level concerns do not arise: the code is pure
string/object manipulation around an abstract transport.
-/

/-- Wire-format names.  The source type `DataFormat` is a union of string
literals, so a format is modelled as its name. -/
abbrev DataFormat := String

/-- A ClickHouse settings object, modelled as an assignment list.  Later
entries shadow earlier ones, matching JavaScript object semantics. -/
abbrev ClickHouseSettings := List (String × String)

/-- Lookup in a settings object: the last binding of a key wins, as for a
JavaScript object built by spreads. -/
def settingsLookup (s : ClickHouseSettings) (k : String) : Option String :=
  (s.reverse.find? (fun p => p.fst == k)).map Prod.snd

/-- JavaScript spread of two settings objects, as in
`getQueryParams`: the defaults are written first, the call-level
settings after them, so call-level bindings shadow defaults. -/
def spreadSettings (d c : ClickHouseSettings) : ClickHouseSettings := d ++ c

/-- Characters the JavaScript string trim method removes (whitespace and
line terminators), modelled by the Lean whitespace predicate. -/
def jsWhitespace (c : Char) : Bool := c.isWhitespace

/-- Model of the JavaScript string trim method used by the source
(`params.query.trim()`, `params.table.trim()`): drop whitespace from both
ends of the character sequence. -/
def jsTrim (s : String) : String :=
  ⟨((s.data.dropWhile jsWhitespace).reverse.dropWhile jsWhitespace).reverse⟩

/-- The descending loop of the source `removeTrailingSemi`:
`for (let i = lastNonSemiIdx; i > 0; i--) if (query[i - 1] !== ';') then
set lastNonSemiIdx to i and break`.  `len` is the initial value of
`lastNonSemiIdx` (the string length), returned when the loop exhausts
without breaking. -/
def semiScan (cs : List Char) (len : Nat) : Nat → Nat
  | 0 => len
  | i + 1 => if cs.getD i ';' ≠ ';' then i + 1 else semiScan cs len i

/-- Source function `removeTrailingSemi`: find the last index whose
character is not a semicolon by scanning from the end; if some index was
found strictly before the end, slice the text up to it, else return the
text unchanged. -/
def removeTrailingSemi (query : String) : String :=
  let cs := query.data
  let lastNonSemiIdx := semiScan cs cs.length cs.length
  if lastNonSemiIdx ≠ cs.length then ⟨cs.take lastNonSemiIdx⟩ else query

/-- Specification-side stripping, written from the spec's words: drop the
maximal run of trailing semicolons from the end of the text.  Used only to
compare against the source's `removeTrailingSemi`. -/
def stripTrailingSemiSpec (q : String) : String :=
  ⟨(q.data.reverse.dropWhile (fun c => c == ';')).reverse⟩

/-- Source function `formatQuery`: trim the query text, strip trailing
semicolons, then append the FORMAT clause. -/
def formatQuery (query : String) (format : DataFormat) : String :=
  removeTrailingSemi (jsTrim query) ++ " \nFORMAT " ++ format

/-- JavaScript logical-or on an optional string operand, as in
`params.format || 'JSONCompactEachRow'`: undefined and the empty string
are falsy. -/
def jsOrString (o : Option String) (d : String) : String :=
  match o with
  | none => d
  | some s => if s = "" then d else s

/-- Model of a parsed WHATWG URL; only the fields the client inspects. -/
structure URL where
  protocol : String
  href : String
deriving DecidableEq, Repr

structure Compression where
  decompress_response : Bool
  compress_request : Bool
deriving DecidableEq, Repr

/-- Resolved connection parameters (`ConnectionParams` of the source).
`max_open_connections` is an optional bound, `none` standing for the
source's `Infinity`.  The logging sink is omitted: no claim observes it. -/
structure ConnectionParams where
  application_id : Option String
  url : URL
  request_timeout : Nat
  max_open_connections : Option Nat
  compression : Compression
  username : String
  password : String
  database : String
  clickhouse_settings : ClickHouseSettings
deriving DecidableEq, Repr

/-- User-facing configuration (`ClickHouseClientConfigOptions` without the
`impl` record, whose members are modelled separately). -/
structure ClickHouseClientConfigOptions where
  host : Option String := none
  request_timeout : Option Nat := none
  max_open_connections : Option Nat := none
  compression_response : Option Bool := none
  compression_request : Option Bool := none
  username : Option String := none
  password : Option String := none
  application : Option String := none
  database : Option String := none
  clickhouse_settings : Option ClickHouseSettings := none
  session_id : Option String := none
deriving DecidableEq, Repr

inductive ConfigError
  | malformedUrl
  | unsupportedProtocol (protocol : String)
deriving DecidableEq, Repr

/-- Source function `createUrl`: the WHATWG URL constructor is a platform
primitive outside the repository, so it is passed in as `parseURL`; a
parse failure becomes the malformed-url configuration error. -/
def createUrl (parseURL : String → Option URL) (host : String) :
    Except ConfigError URL :=
  match parseURL host with
  | some u => .ok u
  | none => .error .malformedUrl

/-- Source function `validateConnectionParams`: reject any protocol other
than http or https. -/
def validateConnectionParams (p : ConnectionParams) : Except ConfigError Unit :=
  if p.url.protocol ≠ "http:" ∧ p.url.protocol ≠ "https:" then
    .error (.unsupportedProtocol p.url.protocol)
  else
    .ok ()

/-- Source function `getConnectionParams`: fill defaults and parse the
host URL. -/
def getConnectionParams (parseURL : String → Option URL)
    (config : ClickHouseClientConfigOptions) : Except ConfigError ConnectionParams :=
  match createUrl parseURL (config.host.getD "http://localhost:8123") with
  | .error e => .error e
  | .ok url =>
    .ok { application_id := config.application
        , url := url
        , request_timeout := config.request_timeout.getD 300000
        , max_open_connections := config.max_open_connections
        , compression := { decompress_response := config.compression_response.getD true
                         , compress_request := config.compression_request.getD false }
        , username := config.username.getD "default"
        , password := config.password.getD ""
        , database := config.database.getD "default"
        , clickhouse_settings := config.clickhouse_settings.getD [] }

/-- Outcome of running the client constructor: the thrown error or the
resolved state, together with how many connections were created by
`make_connection` along the way. -/
structure ConstructTrace where
  result : Except ConfigError (ConnectionParams × Option String)
  connectionsCreated : Nat

/-- The `ClickHouseClient` constructor: resolve connection parameters (URL
parsing may throw), record the configured session id, validate the URL
protocol (may throw), and only then call `make_connection` (counted in
`connectionsCreated`). -/
def clientConstruct (parseURL : String → Option URL)
    (config : ClickHouseClientConfigOptions) : ConstructTrace :=
  match getConnectionParams parseURL config with
  | .error e => { result := .error e, connectionsCreated := 0 }
  | .ok cp =>
    match validateConnectionParams cp with
    | .error e => { result := .error e, connectionsCreated := 0 }
    | .ok _ => { result := .ok (cp, config.session_id), connectionsCreated := 1 }

/-- Per-call parameters shared by query, exec, command and insert
(`BaseQueryParams` of the source). -/
structure BaseQueryParams where
  clickhouse_settings : Option ClickHouseSettings := none
  query_params : Option (List (String × String)) := none
  abort_signal : Option Unit := none
  query_id : Option String := none
  session_id : Option String := none
deriving DecidableEq, Repr

structure QueryParams extends BaseQueryParams where
  query : String
  format : Option DataFormat := none
deriving DecidableEq, Repr

structure ExecParams extends BaseQueryParams where
  query : String
deriving DecidableEq, Repr

abbrev CommandParams := ExecParams

structure CommandResult where
  query_id : String
deriving DecidableEq, Repr

structure InsertParams (V : Type) extends BaseQueryParams where
  table : String
  values : V
  format : Option DataFormat := none
deriving DecidableEq, Repr

/-- The record assembled by `getQueryParams` and spread into every
connection request. -/
structure ConnBaseParams where
  clickhouse_settings : ClickHouseSettings
  query_params : Option (List (String × String))
  abort_signal : Option Unit
  query_id : Option String
  session_id : Option String
deriving DecidableEq, Repr

structure ConnQueryRequest where
  query : String
  params : ConnBaseParams
deriving DecidableEq, Repr

structure ConnInsertRequest (E : Type) where
  query : String
  values : E
  params : ConnBaseParams
deriving DecidableEq, Repr

structure ConnQueryResult (S : Type) where
  stream : S
  query_id : String
deriving DecidableEq, Repr

structure ConnInsertResult where
  query_id : String
deriving DecidableEq, Repr

abbrev TransportError := String
abbrev ValidationError := String

/-- Modelled from the spec: the connection ping implementation
(node_base_connection, not among the sources) never throws and reports
success or failure inside the result value. -/
inductive ConnPingResult
  | success
  | failure (error : String)
deriving DecidableEq, Repr

/-- Model of the connection the client talks to: the outcome of each
operation as a function of the request it receives.  A rejected promise is
an `Except.error` carrying the transport error. -/
structure Connection (S E : Type) where
  query : ConnQueryRequest → Except TransportError (ConnQueryResult S)
  exec : ConnQueryRequest → Except TransportError (ConnQueryResult S)
  insert : ConnInsertRequest E → Except TransportError ConnInsertResult
  ping : ConnPingResult

/-- The `impl.values_encoder` contract: validation may throw, encoding
produces the payload. -/
structure ValuesEncoder (V E : Type) where
  validateInsertValues : V → DataFormat → Except ValidationError Unit
  encodeValues : V → DataFormat → E

/-- The result set handed back by `query`: `make_result_set` is modelled
as this constructor, faithful to its arguments `(stream, format,
query_id)` at the call site. -/
structure ResultSet (S : Type) where
  stream : S
  format : DataFormat
  query_id : String
deriving DecidableEq, Repr

/-- A constructed client: resolved connection parameters, the connection,
the values encoder, and the session id remembered from the configuration. -/
structure ClickHouseClient (S E V : Type) where
  connectionParams : ConnectionParams
  connection : Connection S E
  valuesEncoder : ValuesEncoder V E
  sessionId : Option String

variable {S E V : Type}

/-- Source method `getQueryParams`: spread the connection-level default
settings then the call-level settings, copy the per-call fields, and use
the client-level session id. -/
def ClickHouseClient.getQueryParams (c : ClickHouseClient S E V)
    (params : BaseQueryParams) : ConnBaseParams :=
  { clickhouse_settings :=
      spreadSettings c.connectionParams.clickhouse_settings
        (params.clickhouse_settings.getD [])
  , query_params := params.query_params
  , abort_signal := params.abort_signal
  , query_id := params.query_id
  , session_id := c.sessionId }

/-- Source method `query`: pick the effective format (caller's or JSON),
rewrite the text via `formatQuery`, call the connection, and wrap the
response stream in a result set with that format and the returned
query id. -/
def ClickHouseClient.query (c : ClickHouseClient S E V) (params : QueryParams) :
    Except TransportError (ResultSet S) :=
  let format := params.format.getD "JSON"
  let q := formatQuery params.query format
  match c.connection.query { query := q, params := c.getQueryParams params.toBaseQueryParams } with
  | .error e => .error e
  | .ok r => .ok { stream := r.stream, format := format, query_id := r.query_id }

/-- Source method `exec`: strip trailing semicolons from the trimmed text
(no FORMAT clause) and return the connection's result untouched. -/
def ClickHouseClient.exec (c : ClickHouseClient S E V) (params : ExecParams) :
    Except TransportError (ConnQueryResult S) :=
  c.connection.exec
    { query := removeTrailingSemi (jsTrim params.query)
    , params := c.getQueryParams params.toBaseQueryParams }

/-- Source method `command`: delegate to `exec`; on success the returned
stream is handed to `close_stream` — recorded in the second component of
the result — and only the query id is returned; a rejection of `exec`
propagates. -/
def ClickHouseClient.command (c : ClickHouseClient S E V) (params : CommandParams) :
    Except TransportError (CommandResult × List S) :=
  match c.exec params with
  | .error e => .error e
  | .ok r => .ok ({ query_id := r.query_id }, [r.stream])

inductive InsertCallError
  | validation (e : ValidationError)
  | transport (e : TransportError)
deriving DecidableEq, Repr

/-- Source method `insert`: pick the effective format (caller's or
JSONCompactEachRow, via JavaScript logical-or), validate the values
(a failure throws before anything is sent), build the INSERT statement
from the trimmed table name, encode the values, and call the connection.
The second component logs every request handed to the connection. -/
def ClickHouseClient.insert (c : ClickHouseClient S E V) (params : InsertParams V) :
    Except InsertCallError ConnInsertResult × List (ConnInsertRequest E) :=
  let format := jsOrString params.format "JSONCompactEachRow"
  match c.valuesEncoder.validateInsertValues params.values format with
  | .error e => (.error (.validation e), [])
  | .ok _ =>
    let req : ConnInsertRequest E :=
      { query := "INSERT INTO " ++ jsTrim params.table ++ " FORMAT " ++ format
      , values := c.valuesEncoder.encodeValues params.values format
      , params := c.getQueryParams params.toBaseQueryParams }
    match c.connection.insert req with
    | .error e => (.error (.transport e), [req])
    | .ok r => (.ok r, [req])

/-- Source method `ping`: delegate to the connection's ping. -/
def ClickHouseClient.ping (c : ClickHouseClient S E V) : ConnPingResult :=
  c.connection.ping

/-- A sample resolved configuration, used by concrete witnesses. -/
def sampleConnectionParams : ConnectionParams :=
  { application_id := none
  , url := { protocol := "http:", href := "http://localhost:8123" }
  , request_timeout := 300000
  , max_open_connections := none
  , compression := { decompress_response := true, compress_request := false }
  , username := "default"
  , password := ""
  , database := "default"
  , clickhouse_settings := [("send_progress_in_http_headers", "1"), ("request_timeout", "100")] }

/-- A sample connection that answers every request successfully. -/
def sampleConn : Connection Nat String :=
  { query := fun _ => .ok { stream := 7, query_id := "qid" }
  , exec := fun _ => .ok { stream := 7, query_id := "qid" }
  , insert := fun _ => .ok { query_id := "qid" }
  , ping := .success }

/-- A sample connection whose every request fails with a transport error. -/
def sampleFailConn : Connection Nat String :=
  { query := fun _ => .error "boom"
  , exec := fun _ => .error "boom"
  , insert := fun _ => .error "boom"
  , ping := .failure "boom" }

/-- A sample values encoder over lists of naturals: an empty list fails
validation, encoding records the format and the number of rows. -/
def sampleEncoder : ValuesEncoder (List Nat) String :=
  { validateInsertValues := fun v _ => if v = [] then .error "empty values" else .ok ()
  , encodeValues := fun v format => format ++ ":" ++ toString v.length }

/-- A sample client over the successful connection, with no configured
session id. -/
def sampleClient : ClickHouseClient Nat String (List Nat) :=
  { connectionParams := sampleConnectionParams
  , connection := sampleConn
  , valuesEncoder := sampleEncoder
  , sessionId := none }

/-- A sample client over the failing connection. -/
def sampleFailClient : ClickHouseClient Nat String (List Nat) :=
  { connectionParams := sampleConnectionParams
  , connection := sampleFailConn
  , valuesEncoder := sampleEncoder
  , sessionId := none }

/-! ## Helper lemmas about lists -/

/-- dropWhile is drop by the length of takeWhile. -/
theorem dropWhile_eq_drop_lenTakeWhile (p : Char → Bool) (l : List Char) :
    l.dropWhile p = l.drop (l.takeWhile p).length := by
  calc l.dropWhile p
      = (l.takeWhile p ++ l.dropWhile p).drop (l.takeWhile p).length := by
        rw [List.drop_left]
    _ = l.drop (l.takeWhile p).length := by
        rw [List.takeWhile_append_dropWhile]

/-- takeWhile keeps the whole list exactly when every element satisfies
the predicate. -/
theorem lenTakeWhile_eq_iff_all (p : Char → Bool) (l : List Char) :
    (l.takeWhile p).length = l.length ↔ l.all p = true := by
  induction l with
  | nil => simp
  | cons a l ih =>
    cases h : p a with
    | true =>
      rw [List.takeWhile_cons_of_pos h, List.all_cons, h]
      simp only [List.length_cons, Nat.succ.injEq, Bool.true_and]
      exact ih
    | false =>
      rw [List.takeWhile_cons_of_neg (by simp [h]), List.all_cons, h]
      simp only [List.length_nil, List.length_cons, Bool.false_and]
      constructor
      · intro hc; omega
      · intro hc; simp at hc

/-! ## The trailing-semicolon scan -/

/-- Characterization of the descending scan: starting at position `i`
over the character list, it returns `len` when the last `i` characters
are all semicolons, and otherwise the position one past the last
non-semicolon among the first `i` characters. -/
theorem semiScan_spec (cs : List Char) :
    ∀ i, i ≤ cs.length →
      semiScan cs cs.length i =
        if ((cs.take i).reverse.takeWhile (fun c => c == ';')).length = i then cs.length
        else i - ((cs.take i).reverse.takeWhile (fun c => c == ';')).length := by
  intro i
  induction i with
  | zero => intro _; simp [semiScan]
  | succ i ih =>
    intro hle
    have hi : i < cs.length := Nat.lt_of_succ_le hle
    have hgetD : cs.getD i ';' = cs[i] := by
      simp [List.getD_eq_getElem?_getD, List.getElem?_eq_getElem hi]
    have htake : cs.take (i + 1) = cs.take i ++ [cs[i]] := by
      rw [List.take_succ, List.getElem?_eq_getElem hi]
      rfl
    have hrev : (cs.take (i + 1)).reverse = cs[i] :: (cs.take i).reverse := by
      rw [htake, List.reverse_append]
      rfl
    rw [semiScan, hgetD]
    by_cases hc : cs[i] = ';'
    · rw [if_neg (by simp [hc]), ih (Nat.le_of_lt hi), hrev,
        List.takeWhile_cons_of_pos (by simp [hc])]
      have htw := (List.takeWhile_sublist (l := (cs.take i).reverse) (fun c => c == ';')).length_le
      rw [List.length_reverse, List.length_take, Nat.min_eq_left (Nat.le_of_lt hi)] at htw
      by_cases hall : ((cs.take i).reverse.takeWhile (fun c => c == ';')).length = i
      · rw [if_pos hall, if_pos (by simp [hall])]
      · rw [if_neg hall, if_neg (by simp; omega)]
        simp only [List.length_cons]
        omega
    · rw [if_pos (by simp [hc]), hrev, List.takeWhile_cons_of_neg (by simp [hc])]
      simp

/-- Characterization of the source `removeTrailingSemi` against the
specification-side stripping: a text made only of semicolons (or empty)
is returned unchanged, any other text has its maximal trailing run of
semicolons removed. -/
theorem removeTrailingSemi_eq (q : String) :
    removeTrailingSemi q =
      if q.data.all (fun c => c == ';') then q else stripTrailingSemiSpec q := by
  have hspec := semiScan_spec q.data q.data.length (Nat.le_refl _)
  rw [List.take_length] at hspec
  have htle : (q.data.reverse.takeWhile (fun c => c == ';')).length ≤ q.data.length := by
    have h := (List.takeWhile_sublist (l := q.data.reverse) (fun c => c == ';')).length_le
    rwa [List.length_reverse] at h
  have hall : ((q.data.reverse.takeWhile (fun c => c == ';')).length = q.data.length)
      ↔ q.data.all (fun c => c == ';') = true := by
    constructor
    · intro hlen
      have h2 : (q.data.reverse.takeWhile (fun c => c == ';')).length = q.data.reverse.length := by
        rwa [List.length_reverse]
      have h3 := (lenTakeWhile_eq_iff_all (fun c => c == ';') q.data.reverse).mp h2
      rwa [List.all_reverse] at h3
    · intro hq
      have h2 : q.data.reverse.all (fun c => c == ';') = true := by rwa [List.all_reverse]
      have h3 := (lenTakeWhile_eq_iff_all (fun c => c == ';') q.data.reverse).mpr h2
      rwa [List.length_reverse] at h3
  simp only [removeTrailingSemi, hspec]
  by_cases h : q.data.all (fun c => c == ';') = true
  · rw [if_pos h, if_pos (hall.mpr h)]
    simp
  · rw [if_neg h, if_neg (fun hc => h (hall.mp hc))]
    have hdrop : q.data.reverse.dropWhile (fun c => c == ';')
        = q.data.reverse.drop (q.data.reverse.takeWhile (fun c => c == ';')).length :=
      dropWhile_eq_drop_lenTakeWhile _ _
    by_cases ht0 : (q.data.reverse.takeWhile (fun c => c == ';')).length = 0
    · rw [ht0, Nat.sub_zero, if_neg (fun hc => hc rfl)]
      rw [stripTrailingSemiSpec, hdrop, ht0, List.drop_zero, List.reverse_reverse]
    · have hne : q.data.length - (q.data.reverse.takeWhile (fun c => c == ';')).length
          ≠ q.data.length := by
        have h2 : (q.data.reverse.takeWhile (fun c => c == ';')).length ≠ q.data.length :=
          fun hc => h (hall.mp hc)
        omega
      rw [if_pos hne]
      rw [stripTrailingSemiSpec, hdrop, List.reverse_drop, List.reverse_reverse,
        List.length_reverse]

/-! ## C1 -/

/-- C1: counterexample — the claim says every text ending in one or more
semicolons is stripped to end in none, but a text consisting only of a
semicolon is returned unchanged by `removeTrailingSemi` and still ends in
a semicolon. -/
theorem removeTrailingSemi_counterexample_allSemi :
    (";" : String).data.getLast? = some ';' ∧
    (removeTrailingSemi ";").data.getLast? = some ';' := by
  constructor <;> rfl

/-- C1 (amended): `removeTrailingSemi` removes the maximal run of trailing
semicolons from every text that contains at least one non-semicolon
character, so that the result ends in no semicolon and mid-text semicolons
are preserved (the result is the text truncated right after its last
non-semicolon character); a text with no trailing semicolon is returned
unchanged; but a text consisting entirely of semicolons (or empty) is
returned unchanged. -/
theorem removeTrailingSemi_characterization (q : String) :
    (q.data.all (fun c => c == ';') = true → removeTrailingSemi q = q) ∧
    (q.data.all (fun c => c == ';') = false →
      removeTrailingSemi q = stripTrailingSemiSpec q ∧
      (removeTrailingSemi q).data.getLast? ≠ some ';') ∧
    (q.data.getLast? ≠ some ';' → removeTrailingSemi q = q) := by
  refine ⟨fun h => ?_, fun h => ?_, fun h => ?_⟩
  · rw [removeTrailingSemi_eq, if_pos h]
  · have heq : removeTrailingSemi q = stripTrailingSemiSpec q := by
      rw [removeTrailingSemi_eq, if_neg (by simp [h])]
    refine ⟨heq, ?_⟩
    rw [heq]
    intro hlast
    have hlast' : (q.data.reverse.dropWhile (fun c => c == ';')).head? = some ';' := by
      rw [stripTrailingSemiSpec] at hlast
      rwa [List.getLast?_reverse] at hlast
    have := List.head?_dropWhile_not (fun c => c == ';') q.data.reverse
    rw [hlast'] at this
    simp at this
  · rw [removeTrailingSemi_eq]
    by_cases hall : q.data.all (fun c => c == ';') = true
    · rw [if_pos hall]
    · rw [if_neg hall]
      cases hlq : q.data.getLast? with
      | none =>
        have : q.data = [] := by
          cases hd : q.data with
          | nil => rfl
          | cons a l => rw [hd] at hlq; simp [List.getLast?_concat] at hlq
        rw [stripTrailingSemiSpec, this]
        cases q; simp_all
      | some c =>
        have hc : ¬ (c == ';') = true := by
          intro hsem
          apply h; rw [hlq]
          simp at hsem; rw [hsem]
        have hhead : q.data.reverse.head? = some c := by
          rw [List.head?_reverse, hlq]
        have hdw : q.data.reverse.dropWhile (fun c => c == ';') = q.data.reverse := by
          cases hr : q.data.reverse with
          | nil => rfl
          | cons a l =>
            rw [hr] at hhead
            simp at hhead
            rw [List.dropWhile_cons_of_neg (by rw [hhead]; exact hc)]
        rw [stripTrailingSemiSpec, hdw, List.reverse_reverse]

/-- C1 (amended) witness: concrete evaluations through the amended
theorem — a normal query loses its trailing semicolons, an all-semicolon
text is unchanged, a text without trailing semicolon is unchanged. -/
theorem removeTrailingSemi_characterization_witness :
    removeTrailingSemi "SELECT 1;;;" = stripTrailingSemiSpec "SELECT 1;;;" ∧
    removeTrailingSemi ";;;" = ";;;" ∧
    removeTrailingSemi "SELECT ascii(59)" = "SELECT ascii(59)" :=
  ⟨((removeTrailingSemi_characterization "SELECT 1;;;").2.1 (by decide)).1,
   (removeTrailingSemi_characterization ";;;").1 (by decide),
   (removeTrailingSemi_characterization "SELECT ascii(59)").2.2 (by decide)⟩

/-! ## Settings lookup helpers -/

/-- Searching an appended list finds the left result first. -/
theorem find?_append_of_some {α : Type} (p : α → Bool) {l₁ : List α} (l₂ : List α)
    {a : α} (h : l₁.find? p = some a) : (l₁ ++ l₂).find? p = some a := by
  induction l₁ with
  | nil => simp at h
  | cons x l ih =>
    rw [List.cons_append]
    cases hx : p x with
    | true =>
      rw [List.find?_cons_of_pos _ hx] at h ⊢
      exact h
    | false =>
      rw [List.find?_cons_of_neg _ (by simp [hx])] at h ⊢
      exact ih h

/-- Searching an appended list falls through to the right part when the
left part has no match. -/
theorem find?_append_of_none {α : Type} (p : α → Bool) {l₁ : List α} (l₂ : List α)
    (h : l₁.find? p = none) : (l₁ ++ l₂).find? p = l₂.find? p := by
  induction l₁ with
  | nil => simp
  | cons x l ih =>
    cases hx : p x with
    | true => rw [List.find?_cons_of_pos _ hx] at h; exact absurd h (by simp)
    | false =>
      rw [List.find?_cons_of_neg _ (by simp [hx])] at h
      rw [List.cons_append, List.find?_cons_of_neg _ (by simp [hx])]
      exact ih h

/-- A call-level binding survives the spread. -/
theorem settingsLookup_spread_call (d c : ClickHouseSettings) (k v : String)
    (h : settingsLookup c k = some v) :
    settingsLookup (spreadSettings d c) k = some v := by
  rw [settingsLookup, spreadSettings, List.reverse_append]
  rw [settingsLookup] at h
  cases hf : c.reverse.find? (fun p => p.fst == k) with
  | none => rw [hf] at h; simp at h
  | some a =>
    rw [hf] at h
    rw [find?_append_of_some _ _ hf]
    exact h

/-- A key with no call-level binding falls back to the defaults. -/
theorem settingsLookup_spread_default (d c : ClickHouseSettings) (k : String)
    (h : settingsLookup c k = none) :
    settingsLookup (spreadSettings d c) k = settingsLookup d k := by
  rw [settingsLookup, spreadSettings, List.reverse_append]
  rw [settingsLookup] at h
  cases hf : c.reverse.find? (fun p => p.fst == k) with
  | none => rw [find?_append_of_none _ _ hf]; rfl
  | some a => rw [hf] at h; simp at h

/-! ## C2 -/

/-- C2: counterexample — a call that supplies an explicit per-call session
identifier does not see it in the request descriptor: the client built
with no configured session id passes none to the connection instead of
the supplied per-call value. -/
theorem getQueryParams_session_counterexample :
    (sampleClient.getQueryParams { session_id := some "per-call-session" }).session_id = none ∧
    some "per-call-session" ≠ (none : Option String) :=
  ⟨rfl, by decide⟩

/-- C2 (amended): the request descriptor passed to the connection always
carries the client-level session identifier remembered from the
configuration; the per-call session identifier field of the parameter
record is dropped. -/
theorem getQueryParams_session_from_config (c : ClickHouseClient S E V)
    (params : BaseQueryParams) :
    (c.getQueryParams params).session_id = c.sessionId := rfl

/-! ## C3 -/

/-- C3: `query` transmits the caller's text trimmed, with trailing
semicolons stripped and the FORMAT clause for the effective format
appended — the effective format being the caller's format, else JSON —
and wraps the connection's response stream, that same effective format
and the returned query id into the result set. -/
theorem query_formats_text_and_wraps_result (c : ClickHouseClient S E V)
    (params : QueryParams) (r : ConnQueryResult S)
    (h : c.connection.query
        { query := removeTrailingSemi (jsTrim params.query) ++ " \nFORMAT "
            ++ params.format.getD "JSON"
        , params := c.getQueryParams params.toBaseQueryParams } = .ok r) :
    c.query params = .ok { stream := r.stream
                         , format := params.format.getD "JSON"
                         , query_id := r.query_id } := by
  simp only [ClickHouseClient.query, formatQuery, h]

/-- C3 witness: a concrete query call through the theorem. -/
theorem query_formats_text_and_wraps_result_witness :
    sampleClient.query { query := " SELECT 1;; ", format := some "CSV" } =
      .ok { stream := 7, format := "CSV", query_id := "qid" } :=
  query_formats_text_and_wraps_result sampleClient
    { query := " SELECT 1;; ", format := some "CSV" } { stream := 7, query_id := "qid" } rfl

/-! ## C4 -/

/-- C4: the effective settings of every call are the connection-level
defaults overlaid with the call-level settings — on a key bound by the
call the call-level value wins, and a key not bound by the call keeps its
connection-level default value. -/
theorem effective_settings_merge (c : ClickHouseClient S E V)
    (params : BaseQueryParams) (k : String) :
    (∀ v, settingsLookup (params.clickhouse_settings.getD []) k = some v →
        settingsLookup ((c.getQueryParams params).clickhouse_settings) k = some v) ∧
    (settingsLookup (params.clickhouse_settings.getD []) k = none →
        settingsLookup ((c.getQueryParams params).clickhouse_settings) k =
          settingsLookup c.connectionParams.clickhouse_settings k) := by
  constructor
  · intro v h
    exact settingsLookup_spread_call _ _ _ _ h
  · intro h
    exact settingsLookup_spread_default _ _ _ h

/-- C4 witness: on the sample client (defaults bind
send_progress_in_http_headers and request_timeout), a call that rebinds
request_timeout wins on that key and keeps the unrelated default. -/
theorem effective_settings_merge_witness :
    settingsLookup ((sampleClient.getQueryParams
        { clickhouse_settings := some [("request_timeout", "42")] }).clickhouse_settings)
      "request_timeout" = some "42" ∧
    settingsLookup ((sampleClient.getQueryParams
        { clickhouse_settings := some [("request_timeout", "42")] }).clickhouse_settings)
      "send_progress_in_http_headers" =
      settingsLookup sampleClient.connectionParams.clickhouse_settings
        "send_progress_in_http_headers" :=
  ⟨(effective_settings_merge sampleClient
      { clickhouse_settings := some [("request_timeout", "42")] } "request_timeout").1
      "42" (by decide),
   (effective_settings_merge sampleClient
      { clickhouse_settings := some [("request_timeout", "42")] }
      "send_progress_in_http_headers").2 (by decide)⟩

/-! ## C5 -/

/-- C5: `command` delegates to `exec`; when `exec` succeeds the returned
stream is unconditionally handed to the stream closer before the call
returns, and the call returns only the query id; when `exec` fails with a
transport error that error is propagated to the caller. -/
theorem command_closes_stream_and_propagates (c : ClickHouseClient S E V)
    (params : CommandParams) :
    (∀ e, c.exec params = .error e → c.command params = .error e) ∧
    (∀ r, c.exec params = .ok r →
        c.command params = .ok ({ query_id := r.query_id }, [r.stream])) := by
  constructor
  · intro e h
    simp only [ClickHouseClient.command, h]
  · intro r h
    simp only [ClickHouseClient.command, h]

/-- C5 witness: on the successful sample client the stream is closed and
only the query id returned; on the failing client the transport error is
propagated. -/
theorem command_closes_stream_and_propagates_witness :
    sampleClient.command { query := "DROP TABLE t" } = .ok ({ query_id := "qid" }, [7]) ∧
    sampleFailClient.command { query := "DROP TABLE t" } = .error "boom" :=
  ⟨(command_closes_stream_and_propagates sampleClient { query := "DROP TABLE t" }).2
      { stream := 7, query_id := "qid" } rfl,
   (command_closes_stream_and_propagates sampleFailClient { query := "DROP TABLE t" }).1
      "boom" rfl⟩

/-! ## C6 -/

/-- C6: when the effective host string does not parse as a URL, or parses
to a URL whose protocol is neither http nor https, client construction
fails with the corresponding configuration error and no connection is
created (hence no network call is possible). -/
theorem construct_rejects_bad_url (parseURL : String → Option URL)
    (config : ClickHouseClientConfigOptions) :
    (parseURL (config.host.getD "http://localhost:8123") = none →
        (clientConstruct parseURL config).result = .error .malformedUrl ∧
        (clientConstruct parseURL config).connectionsCreated = 0) ∧
    (∀ u, parseURL (config.host.getD "http://localhost:8123") = some u →
        u.protocol ≠ "http:" → u.protocol ≠ "https:" →
        (clientConstruct parseURL config).result = .error (.unsupportedProtocol u.protocol) ∧
        (clientConstruct parseURL config).connectionsCreated = 0) := by
  constructor
  · intro h
    constructor <;>
      simp only [clientConstruct, getConnectionParams, createUrl, h]
  · intro u h h1 h2
    constructor <;>
      simp only [clientConstruct, getConnectionParams, createUrl, h,
        validateConnectionParams, if_pos (And.intro h1 h2)]

/-- C6 witness: a parse failure and an ftp URL are both rejected without
creating a connection. -/
theorem construct_rejects_bad_url_witness :
    (clientConstruct (fun _ => none) {}).result = .error .malformedUrl ∧
    (clientConstruct (fun _ => none) {}).connectionsCreated = 0 ∧
    (clientConstruct (fun _ => some { protocol := "ftp:", href := "ftp://example" }) {}).result
      = .error (.unsupportedProtocol "ftp:") ∧
    (clientConstruct (fun _ => some { protocol := "ftp:", href := "ftp://example" })
        {}).connectionsCreated = 0 :=
  ⟨((construct_rejects_bad_url (fun _ => none) {}).1 rfl).1,
   ((construct_rejects_bad_url (fun _ => none) {}).1 rfl).2,
   ((construct_rejects_bad_url (fun _ => some { protocol := "ftp:", href := "ftp://example" })
      {}).2 { protocol := "ftp:", href := "ftp://example" } rfl (by decide) (by decide)).1,
   ((construct_rejects_bad_url (fun _ => some { protocol := "ftp:", href := "ftp://example" })
      {}).2 { protocol := "ftp:", href := "ftp://example" } rfl (by decide) (by decide)).2⟩

/-! ## C7 -/

/-- C7: `insert` validates the values against the effective format —
the caller's format, else JSONCompactEachRow — before anything is built
or transmitted: a validation failure throws the validation error with no
request ever handed to the connection, and on success exactly one request
is sent whose statement is INSERT INTO the trimmed table FORMAT the
effective format, carrying the encoded values. -/
theorem insert_validates_before_send (c : ClickHouseClient S E V)
    (params : InsertParams V) :
    (∀ e, c.valuesEncoder.validateInsertValues params.values
            (jsOrString params.format "JSONCompactEachRow") = .error e →
        c.insert params = (.error (.validation e), [])) ∧
    (c.valuesEncoder.validateInsertValues params.values
            (jsOrString params.format "JSONCompactEachRow") = .ok () →
        (c.insert params).2 =
          [{ query := "INSERT INTO " ++ jsTrim params.table ++ " FORMAT "
                ++ jsOrString params.format "JSONCompactEachRow"
            , values := c.valuesEncoder.encodeValues params.values
                (jsOrString params.format "JSONCompactEachRow")
            , params := c.getQueryParams params.toBaseQueryParams }]) := by
  constructor
  · intro e h
    simp only [ClickHouseClient.insert, h]
  · intro h
    simp only [ClickHouseClient.insert, h]
    cases hc : c.connection.insert
        { query := "INSERT INTO " ++ jsTrim params.table ++ " FORMAT "
            ++ jsOrString params.format "JSONCompactEachRow"
        , values := c.valuesEncoder.encodeValues params.values
            (jsOrString params.format "JSONCompactEachRow")
        , params := c.getQueryParams params.toBaseQueryParams } <;> simp [hc]

/-- C7 witness: on the sample encoder an empty values list fails
validation and nothing is sent; a nonempty list is sent as exactly one
INSERT request in the default compact format. -/
theorem insert_validates_before_send_witness :
    sampleClient.insert { table := "t", values := ([] : List Nat) } =
      (.error (.validation "empty values"), []) ∧
    (sampleClient.insert { table := "t", values := [1] }).2 =
      [{ query := "INSERT INTO t FORMAT JSONCompactEachRow"
        , values := "JSONCompactEachRow:1"
        , params := { clickhouse_settings :=
                        [("send_progress_in_http_headers", "1"), ("request_timeout", "100")]
                    , query_params := none, abort_signal := none
                    , query_id := none, session_id := none } }] :=
  ⟨(insert_validates_before_send sampleClient { table := "t", values := [] }).1
      "empty values" rfl,
   (insert_validates_before_send sampleClient { table := "t", values := [1] }).2 rfl⟩

/-! ## C8 -/

/-- C8: `exec` transmits the caller's text trimmed with trailing
semicolons stripped — no FORMAT clause appended — and hands the
connection's live response back to the caller exactly as received,
neither closing nor decoding it. -/
theorem exec_strips_text_returns_live_stream (c : ClickHouseClient S E V)
    (params : ExecParams) (r : ConnQueryResult S)
    (h : c.connection.exec
        { query := removeTrailingSemi (jsTrim params.query)
        , params := c.getQueryParams params.toBaseQueryParams } = .ok r) :
    c.exec params = .ok r := h

/-- C8 witness: a concrete exec call through the theorem. -/
theorem exec_strips_text_returns_live_stream_witness :
    sampleClient.exec { query := " OPTIMIZE TABLE t;; " } =
      .ok { stream := 7, query_id := "qid" } :=
  exec_strips_text_returns_live_stream sampleClient { query := " OPTIMIZE TABLE t;; " }
    { stream := 7, query_id := "qid" } rfl

/-! ## C9 -/

/-- C9: `ping` delegates to the connection's ping and, for every outcome
of that ping — success or a transport failure — returns a result value
reporting the outcome; no error is ever raised since the call is a total
function into the ping-result type. -/
theorem ping_never_raises (c : ClickHouseClient S E V) :
    c.ping = c.connection.ping ∧
    (c.ping = ConnPingResult.success ∨ ∃ e, c.ping = ConnPingResult.failure e) := by
  refine ⟨rfl, ?_⟩
  cases h : c.connection.ping with
  | success => exact Or.inl h
  | failure e => exact Or.inr ⟨e, h⟩

/-! ## C10 helper -/

/-- Padding a string with spaces on both sides does not change its
trimmed form. -/
theorem jsTrim_pad (t : String) : jsTrim ("  " ++ t ++ "  ") = jsTrim t := by
  have hdata : ("  " ++ t ++ "  ").data = ' ' :: ' ' :: (t.data ++ [' ', ' ']) := by
    simp [String.data_append]
  rw [jsTrim, jsTrim, hdata]
  rw [List.dropWhile_cons_of_pos (by decide), List.dropWhile_cons_of_pos (by decide)]
  rw [List.dropWhile_append]
  by_cases h : (t.data.dropWhile jsWhitespace).isEmpty
  · rw [if_pos h]
    have h3 : t.data.dropWhile jsWhitespace = [] := by
      cases hd : t.data.dropWhile jsWhitespace with
      | nil => rfl
      | cons a l => rw [hd] at h; simp at h
    rw [h3]
    rfl
  · rw [if_neg h]
    rw [List.reverse_append]
    simp only [List.reverse_cons, List.reverse_nil, List.nil_append, List.cons_append]
    rw [List.dropWhile_cons_of_pos (by decide), List.dropWhile_cons_of_pos (by decide)]

/-! ## C10 -/

/-- C10: the INSERT statement is invariant under leading and trailing
whitespace in the supplied table name — padding the table name with
spaces produces exactly the same call outcome — while a table name with
no surrounding whitespace appears verbatim in the generated statement. -/
theorem insert_table_whitespace_invariant (c : ClickHouseClient S E V)
    (params : InsertParams V) (t : String) :
    c.insert { params with table := "  " ++ t ++ "  " } =
      c.insert { params with table := t } ∧
    (jsTrim t = t →
      c.valuesEncoder.validateInsertValues params.values
          (jsOrString params.format "JSONCompactEachRow") = .ok () →
      (c.insert { params with table := t }).2.map ConnInsertRequest.query =
        ["INSERT INTO " ++ t ++ " FORMAT " ++ jsOrString params.format "JSONCompactEachRow"]) := by
  constructor
  · simp only [ClickHouseClient.insert, jsTrim_pad]
  · intro h1 h2
    simp only [ClickHouseClient.insert, h2, h1]
    cases hc : c.connection.insert
        { query := "INSERT INTO " ++ t ++ " FORMAT "
            ++ jsOrString params.format "JSONCompactEachRow"
        , values := c.valuesEncoder.encodeValues params.values
            (jsOrString params.format "JSONCompactEachRow")
        , params := c.getQueryParams params.toBaseQueryParams } <;> simp [hc]

/-- C10 witness: inserting into table "  t  " is the same call as
inserting into table "t", and the statement contains the bare name
verbatim. -/
theorem insert_table_whitespace_invariant_witness :
    sampleClient.insert { table := "  t  ", values := [1] } =
      sampleClient.insert { table := "t", values := [1] } ∧
    (sampleClient.insert { table := "t", values := [1] }).2.map ConnInsertRequest.query =
      ["INSERT INTO t FORMAT JSONCompactEachRow"] :=
  ⟨(insert_table_whitespace_invariant sampleClient { table := "t", values := [1] } "t").1,
   (insert_table_whitespace_invariant sampleClient { table := "t", values := [1] } "t").2
      rfl rfl⟩
